import Mathlib

/-!
Shallow embedding of `getconnected.py`: a pipeline that reads MAC addresses,
validates them with a regex, looks up device details through a cached HTTP
client, flattens the responses into report rows and writes them to CSV.

JSON scalar values are modelled by `JVal`; dictionaries (API responses,
report rows) by association lists with Python `dict.get` semantics; the HTTP
layer by an oracle `net : Nat → JVal → Resp` giving the response to the n-th
request issued in the run; the module-level mutable state (`switch_cache`,
the log file, and the sequence of requests issued) by the structure `St`.
-/

/-- A JSON scalar value as it appears in an API response. -/
inductive JVal where
  | null : JVal
  | bool : Bool → JVal
  | num : Int → JVal
  | str : String → JVal
deriving DecidableEq, Repr

/-- A JSON object / Python dict with string keys, as an association list. -/
abbrev Obj := List (String × JVal)

/-- Python `d.get(k)`: the value stored at `k`, or `None` when absent. -/
def oget (d : Obj) (k : String) : Option JVal :=
  match d with
  | [] => none
  | (k₂, v) :: t => if k₂ = k then some v else oget t k

/-- Python `d.get(k, dflt)`: the stored value when the key is present (even
when that value is `null`), the default otherwise. -/
def ogetD (d : Obj) (k : String) (dflt : JVal) : JVal :=
  (oget d k).getD dflt

/-- Python truthiness of a JSON scalar (`bool(v)`). -/
def truthy : JVal → Bool
  | JVal.null => false
  | JVal.bool b => b
  | JVal.num n => n != 0
  | JVal.str s => s != ""

/-- Python truthiness of `d.get(k)` (absent key is falsy). -/
def truthyOpt : Option JVal → Bool
  | none => false
  | some v => truthy v

/-- Outcome of one `requests.get` call in `get_device_or_switch_details`:
a 200 response with a JSON object body, a non-success status (with its
`response.text`), or a raised `requests.exceptions.RequestException`
(which also covers a malformed-JSON body, whose decode error is a
`RequestException` subclass). -/
inductive Resp where
  | ok : Obj → Resp
  | httpError : String → Resp
  | exn : String → Resp
deriving DecidableEq, Repr

/-- Whether a response is the success case. -/
def Resp.isOk : Resp → Bool
  | Resp.ok _ => true
  | _ => false

/-- One line written through `logging.error` by the script. -/
inductive LogEntry where
  | fetchError : JVal → String → LogEntry
  | requestExn : JVal → String → LogEntry
  | fileNotFound : String → LogEntry
  | fileReadError : String → String → LogEntry
deriving DecidableEq, Repr

/-- The module-level mutable state of one run: the `switch_cache` dict
(keyed by the identifier object passed to the lookup function), the ordered
list of identifiers for which an HTTP request was actually issued, and the
error log. -/
structure St where
  cache : List (JVal × Obj)
  requests : List JVal
  log : List LogEntry
deriving DecidableEq, Repr

/-- The state at interpreter start: empty cache, no requests, empty log. -/
def initSt : St := ⟨[], [], []⟩

/-- Lookup in the `switch_cache` dict (`serial in switch_cache`). -/
def dlookup (k : JVal) : List (JVal × Obj) → Option Obj
  | [] => none
  | (k₂, v) :: t => if k₂ = k then some v else dlookup k t

/-- `get_device_or_switch_details(serial)`: return the cached record when
present; otherwise issue a request. A 200 response is cached and returned;
a non-success status or a raised exception logs an error and returns the
empty dict, caching nothing. -/
def get_device_or_switch_details (net : Nat → JVal → Resp) (serial : JVal)
    (st : St) : Obj × St :=
  match dlookup serial st.cache with
  | some v => (v, st)
  | none =>
    match net st.requests.length serial with
    | Resp.ok d =>
        (d, { st with cache := (serial, d) :: st.cache,
                      requests := st.requests ++ [serial] })
    | Resp.httpError t =>
        ([], { st with requests := st.requests ++ [serial],
                       log := st.log ++ [LogEntry.fetchError serial t] })
    | Resp.exn m =>
        ([], { st with requests := st.requests ++ [serial],
                       log := st.log ++ [LogEntry.requestExn serial m] })

/-- One character of the class `[0-9A-Fa-f]`. -/
def hexDigit (c : Char) : Bool :=
  (decide ('0' ≤ c) && decide (c ≤ '9')) ||
  (decide ('A' ≤ c) && decide (c ≤ 'F')) ||
  (decide ('a' ≤ c) && decide (c ≤ 'f'))

/-- One character of the class `[:-]`. -/
def sepChar (c : Char) : Bool := c == ':' || c == '-'

/-- The body of the pattern `([0-9A-Fa-f]{2}[:-]){5}([0-9A-Fa-f]{2})`
matched against the whole character list. -/
def macCore : List Char → Bool
  | [a₁, a₂, s₁, b₁, b₂, s₂, c₁, c₂, s₃, d₁, d₂, s₄, e₁, e₂, s₅, f₁, f₂] =>
      hexDigit a₁ && hexDigit a₂ && sepChar s₁ &&
      hexDigit b₁ && hexDigit b₂ && sepChar s₂ &&
      hexDigit c₁ && hexDigit c₂ && sepChar s₃ &&
      hexDigit d₁ && hexDigit d₂ && sepChar s₄ &&
      hexDigit e₁ && hexDigit e₂ && sepChar s₅ &&
      hexDigit f₁ && hexDigit f₂
  | _ => false

/-- `validate_mac_address(mac)`:
`bool(re.match(r'^([0-9A-Fa-f]{2}[:-]){5}([0-9A-Fa-f]{2})$', mac))`.
Python's `$` (without `re.MULTILINE`) matches at the end of the string or
just before one newline at the end, hence the second disjunct. -/
def validate_mac_address (s : String) : Bool :=
  macCore s.data ||
  (s.data.getLast? == some '\n' && macCore s.data.dropLast)

/-- The whitespace stripped by Python `str.strip()` (ASCII fragment). -/
def pySpace (c : Char) : Bool :=
  c == ' ' || c == '\t' || c == '\n' || c == '\r' || c == '\x0b' || c == '\x0c'

/-- Python `line.strip()`. -/
def pyStrip (s : String) : String :=
  ⟨((s.data.dropWhile pySpace).reverse.dropWhile pySpace).reverse⟩

/-- The two exception branches of `read_mac_addresses`: `FileNotFoundError`
or any other exception while opening/reading the file. -/
inductive FileErr where
  | notFound : FileErr
  | other : String → FileErr
deriving DecidableEq, Repr

/-- `read_mac_addresses(file_path)`. The file system is modelled by
`contents`: the list of lines `file.readlines()` would return, or the
exception raised. Returns the list of MACs together with the log lines
written. -/
def read_mac_addresses (file_path : String)
    (contents : Except FileErr (List String)) : List String × List LogEntry :=
  match contents with
  | Except.ok lines =>
      let macs := (lines.map pyStrip).filter (fun s => !s.isEmpty)
      (macs.filter validate_mac_address, [])
  | Except.error FileErr.notFound =>
      ([], [LogEntry.fileNotFound file_path])
  | Except.error (FileErr.other m) =>
      ([], [LogEntry.fileReadError file_path m])

/-- A report row, a dict built by `process_mac_addresses`. -/
abbrev Row := Obj

/-- The `info = {...}` dict literal of `process_mac_addresses`, flattening
one device record (plus the related switch record) into a report row. -/
def flattenRecord (mac : String) (device_info switch_details : Obj) : Row :=
  [("MAC Address", JVal.str mac),
   ("Connection Type",
     JVal.str (if truthyOpt (oget device_info "ssid") then "Wireless" else "Wired")),
   ("Description", ogetD device_info "description" (JVal.str "N/A")),
   ("IP", ogetD device_info "ip" (JVal.str "N/A")),
   ("Switch Serial", ogetD device_info "switchSerial" (JVal.str "N/A")),
   ("Switch Port", ogetD device_info "switchPort" (JVal.str "N/A")),
   ("AP Name", ogetD device_info "ssid" (JVal.str "N/A")),
   ("Switch Name", ogetD switch_details "name" (JVal.str "N/A")),
   ("Switch Model", ogetD switch_details "model" (JVal.str "N/A"))]

/-- The column set of every report row, in construction order. -/
def reportColumns : List String :=
  ["MAC Address", "Connection Type", "Description", "IP", "Switch Serial",
   "Switch Port", "AP Name", "Switch Name", "Switch Model"]

/-- The `for mac in mac_addresses:` loop of `process_mac_addresses`:
look each MAC up, skip falsy (empty) records, otherwise look up the
related switch when `switchSerial` is truthy and append the flattened row.
Returns the accumulated `device_info_list` and the final state. -/
def processLoop (net : Nat → JVal → Resp) :
    List String → St → List Row × St
  | [], st => ([], st)
  | mac :: rest, st =>
    let r₁ := get_device_or_switch_details net (JVal.str mac) st
    if r₁.1.isEmpty then
      processLoop net rest r₁.2
    else
      let r₂ := if truthyOpt (oget r₁.1 "switchSerial") then
          get_device_or_switch_details net
            (ogetD r₁.1 "switchSerial" (JVal.str "")) r₁.2
        else ([], r₁.2)
      let rec' := processLoop net rest r₂.2
      (flattenRecord mac r₁.1 r₂.1 :: rec'.1, rec'.2)

/-- `write_to_csv(file_path, data)` via `csv.DictWriter`: field names come
from `data[0].keys()` (an `IndexError` on an empty list); `writeheader()`
then `writerows(data)`, which raises `ValueError` when a row holds a key
outside the field names and substitutes the empty-string `restval` for a
missing key. The produced file is modelled as header plus cell matrix. -/
def write_to_csv (data : List Row) :
    Except String (List String × List (List JVal)) :=
  match data with
  | [] => Except.error "IndexError: list index out of range"
  | r₀ :: _ =>
    let fieldnames := r₀.map Prod.fst
    if data.all (fun r => r.all (fun kv => fieldnames.contains kv.1)) then
      Except.ok (fieldnames,
        data.map (fun r => fieldnames.map (fun k => ogetD r k (JVal.str ""))))
    else
      Except.error "ValueError: dict contains fields not in fieldnames"

/-- `process_mac_addresses(mac_addresses)`: run the loop, then write the CSV
only when `device_info_list` is truthy (non-empty). The middle component is
`none` when the writer was not invoked, otherwise the writer's outcome. -/
def process_mac_addresses (net : Nat → JVal → Resp) (mac_addresses : List String)
    (st : St) :
    List Row × Option (Except String (List String × List (List JVal))) × St :=
  let r := processLoop net mac_addresses st
  if r.1.isEmpty then (r.1, none, r.2)
  else (r.1, some (write_to_csv r.1), r.2)

/-!
Claim-side characterizations and theorems.
-/

/-- A two-character hex group, as in the spec's "2-hex-digit groups". -/
def hexPair (g : List Char) : Prop :=
  ∃ a b, g = [a, b] ∧ hexDigit a = true ∧ hexDigit b = true

/-- Six 2-hex-digit groups joined by five separators, each independently
`:` or `-`.  This is what the compiled pattern actually accepts as a core
match. -/
def macGroups (l : List Char) : Prop :=
  ∃ g₁ g₂ g₃ g₄ g₅ g₆ s₁ s₂ s₃ s₄ s₅,
    hexPair g₁ ∧ hexPair g₂ ∧ hexPair g₃ ∧ hexPair g₄ ∧ hexPair g₅ ∧
    hexPair g₆ ∧
    sepChar s₁ = true ∧ sepChar s₂ = true ∧ sepChar s₃ = true ∧
    sepChar s₄ = true ∧ sepChar s₅ = true ∧
    l = g₁ ++ s₁ :: (g₂ ++ s₂ :: (g₃ ++ s₃ :: (g₄ ++ s₄ :: (g₅ ++ s₅ :: g₆))))

/-- Modelled from the spec: six 2-hex-digit groups "separated uniformly by
a single consistent separator", i.e. one separator character used at all
five positions. -/
def uniformMacGroups (l : List Char) : Prop :=
  ∃ g₁ g₂ g₃ g₄ g₅ g₆ s,
    hexPair g₁ ∧ hexPair g₂ ∧ hexPair g₃ ∧ hexPair g₄ ∧ hexPair g₅ ∧
    hexPair g₆ ∧ sepChar s = true ∧
    l = g₁ ++ s :: (g₂ ++ s :: (g₃ ++ s :: (g₄ ++ s :: (g₅ ++ s :: g₆))))

theorem macCore_iff (l : List Char) : macCore l = true ↔ macGroups l := by
  constructor
  · intro h
    rcases l with _ | ⟨a₁, l⟩; · exact Bool.noConfusion h
    rcases l with _ | ⟨a₂, l⟩; · exact Bool.noConfusion h
    rcases l with _ | ⟨s₁, l⟩; · exact Bool.noConfusion h
    rcases l with _ | ⟨b₁, l⟩; · exact Bool.noConfusion h
    rcases l with _ | ⟨b₂, l⟩; · exact Bool.noConfusion h
    rcases l with _ | ⟨s₂, l⟩; · exact Bool.noConfusion h
    rcases l with _ | ⟨c₁, l⟩; · exact Bool.noConfusion h
    rcases l with _ | ⟨c₂, l⟩; · exact Bool.noConfusion h
    rcases l with _ | ⟨s₃, l⟩; · exact Bool.noConfusion h
    rcases l with _ | ⟨d₁, l⟩; · exact Bool.noConfusion h
    rcases l with _ | ⟨d₂, l⟩; · exact Bool.noConfusion h
    rcases l with _ | ⟨s₄, l⟩; · exact Bool.noConfusion h
    rcases l with _ | ⟨e₁, l⟩; · exact Bool.noConfusion h
    rcases l with _ | ⟨e₂, l⟩; · exact Bool.noConfusion h
    rcases l with _ | ⟨s₅, l⟩; · exact Bool.noConfusion h
    rcases l with _ | ⟨f₁, l⟩; · exact Bool.noConfusion h
    rcases l with _ | ⟨f₂, l⟩; · exact Bool.noConfusion h
    rcases l with _ | ⟨x, l⟩
    · simp only [macCore, Bool.and_eq_true] at h
      obtain ⟨⟨⟨⟨⟨⟨⟨⟨⟨⟨⟨⟨⟨⟨⟨⟨ha₁, ha₂⟩, hs₁⟩, hb₁⟩, hb₂⟩, hs₂⟩, hc₁⟩,
        hc₂⟩, hs₃⟩, hd₁⟩, hd₂⟩, hs₄⟩, he₁⟩, he₂⟩, hs₅⟩, hf₁⟩, hf₂⟩ := h
      exact ⟨[a₁, a₂], [b₁, b₂], [c₁, c₂], [d₁, d₂], [e₁, e₂], [f₁, f₂],
        s₁, s₂, s₃, s₄, s₅,
        ⟨a₁, a₂, rfl, ha₁, ha₂⟩, ⟨b₁, b₂, rfl, hb₁, hb₂⟩,
        ⟨c₁, c₂, rfl, hc₁, hc₂⟩, ⟨d₁, d₂, rfl, hd₁, hd₂⟩,
        ⟨e₁, e₂, rfl, he₁, he₂⟩, ⟨f₁, f₂, rfl, hf₁, hf₂⟩,
        hs₁, hs₂, hs₃, hs₄, hs₅, rfl⟩
    · exact Bool.noConfusion h
  · rintro ⟨g₁, g₂, g₃, g₄, g₅, g₆, s₁, s₂, s₃, s₄, s₅,
      ⟨a₁, a₂, rfl, ha₁, ha₂⟩, ⟨b₁, b₂, rfl, hb₁, hb₂⟩,
      ⟨c₁, c₂, rfl, hc₁, hc₂⟩, ⟨d₁, d₂, rfl, hd₁, hd₂⟩,
      ⟨e₁, e₂, rfl, he₁, he₂⟩, ⟨f₁, f₂, rfl, hf₁, hf₂⟩,
      hs₁, hs₂, hs₃, hs₄, hs₅, rfl⟩
    simp only [List.cons_append, List.nil_append, macCore, Bool.and_eq_true]
    exact ⟨⟨⟨⟨⟨⟨⟨⟨⟨⟨⟨⟨⟨⟨⟨⟨ha₁, ha₂⟩, hs₁⟩, hb₁⟩, hb₂⟩, hs₂⟩, hc₁⟩,
      hc₂⟩, hs₃⟩, hd₁⟩, hd₂⟩, hs₄⟩, he₁⟩, he₂⟩, hs₅⟩, hf₁⟩, hf₂⟩

/-- Claim C1 (amended): `validate_mac_address` returns true iff the string
is six 2-hex-digit groups joined by five separators each independently `:`
or `-` (mixed separators are accepted), optionally followed by one trailing
newline. -/
theorem validate_mac_address_characterization (s : String) :
    validate_mac_address s = true ↔
    (macGroups s.data ∨ ∃ l, s.data = l ++ ['\n'] ∧ macGroups l) := by
  unfold validate_mac_address
  rw [Bool.or_eq_true, Bool.and_eq_true, macCore_iff]
  constructor
  · rintro (h | ⟨hlast, hcore⟩)
    · exact Or.inl h
    · refine Or.inr ⟨s.data.dropLast, ?_, (macCore_iff _).mp hcore⟩
      obtain ⟨ys, hys⟩ := List.getLast?_eq_some_iff.mp (beq_iff_eq.mp hlast)
      rw [hys, List.dropLast_concat]
  · rintro (h | ⟨l, hl, hgroups⟩)
    · exact Or.inl h
    · refine Or.inr ⟨?_, ?_⟩
      · rw [hl, List.getLast?_concat]
        rfl
      · rw [hl, List.dropLast_concat]
        exact (macCore_iff l).mpr hgroups

/-- Claim C1 (counterexample): the address `AA:BB-CC:DD-EE:FF`, which mixes
`:` and `-` separators, is accepted by the validator although the claim says
it is rejected; the fixed pattern re-chooses the separator at each of the
five positions. -/
theorem validate_mixed_separators_accepted :
    validate_mac_address "AA:BB-CC:DD-EE:FF" = true ∧
    ¬ uniformMacGroups (String.data "AA:BB-CC:DD-EE:FF") := by
  constructor
  · decide
  · rintro ⟨g₁, g₂, g₃, g₄, g₅, g₆, s,
      ⟨a₁, a₂, rfl, -, -⟩, ⟨b₁, b₂, rfl, -, -⟩, ⟨c₁, c₂, rfl, -, -⟩,
      ⟨d₁, d₂, rfl, -, -⟩, ⟨e₁, e₂, rfl, -, -⟩, ⟨f₁, f₂, rfl, -, -⟩,
      -, heq⟩
    have hd : String.data "AA:BB-CC:DD-EE:FF" =
        ['A', 'A', ':', 'B', 'B', '-', 'C', 'C', ':',
         'D', 'D', '-', 'E', 'E', ':', 'F', 'F'] := rfl
    rw [hd] at heq
    simp only [List.cons_append, List.nil_append, List.cons.injEq] at heq
    obtain ⟨-, -, h₃, -, -, h₆, -⟩ := heq
    exact absurd (h₃.trans h₆.symm) (by decide)

/-- Claim C2 (counterexample): a device record in which the `ssid` key is
present but holds the empty string is truthy as a record (so it produces a
row), yet is classified `Wired`, although the claim says presence of the
SSID field implies `Wireless`. -/
theorem connection_type_present_empty_ssid_is_wired :
    ([("ssid", JVal.str "")] : Obj) ≠ [] ∧
    oget [("ssid", JVal.str "")] "ssid" = some (JVal.str "") ∧
    oget (flattenRecord "aa:bb:cc:dd:ee:ff" [("ssid", JVal.str "")] [])
        "Connection Type" = some (JVal.str "Wired") := by
  refine ⟨by decide, rfl, rfl⟩

/-- Claim C2 (amended): the flattener classifies a record as `Wireless`
iff the `ssid` field is present with a truthy (non-null, non-empty,
non-zero, non-false) value, and as `Wired` otherwise — Python truthiness,
not mere presence, decides. -/
theorem connection_type_iff_truthy_ssid (mac : String) (d sw : Obj) :
    (oget (flattenRecord mac d sw) "Connection Type" = some (JVal.str "Wireless")
      ↔ truthyOpt (oget d "ssid") = true) ∧
    (oget (flattenRecord mac d sw) "Connection Type" = some (JVal.str "Wired")
      ↔ truthyOpt (oget d "ssid") = false) := by
  cases h : truthyOpt (oget d "ssid") <;>
    simp [flattenRecord, oget, h]

/-- Claim C6: reading MAC addresses when the file is missing
(`FileNotFoundError`) or unreadable (any other exception) returns the empty
sequence and writes exactly one log entry; the function is total, so no
exception escapes. -/
theorem read_mac_addresses_failure_nonfatal (file_path : String) (e : FileErr) :
    (read_mac_addresses file_path (Except.error e)).1 = [] ∧
    (read_mac_addresses file_path (Except.error e)).2.length = 1 := by
  cases e <;> exact ⟨rfl, rfl⟩

theorem validate_mac_address_empty : validate_mac_address "" = false := rfl

/-- Claim C7: on a readable file, the reader returns exactly the stripped
lines that validate as MAC addresses, in file order, without deduplication:
the result is the validity filter of the stripped line list (blank lines
fall out because the empty string never validates), and nothing is logged. -/
theorem read_mac_addresses_filter (file_path : String) (lines : List String) :
    (read_mac_addresses file_path (Except.ok lines)).1
      = (lines.map pyStrip).filter validate_mac_address ∧
    (read_mac_addresses file_path (Except.ok lines)).2 = [] := by
  refine ⟨?_, rfl⟩
  show ((lines.map pyStrip).filter (fun s => !s.isEmpty)).filter
      validate_mac_address = (lines.map pyStrip).filter validate_mac_address
  rw [List.filter_filter]
  apply List.filter_congr
  intro s _
  cases hs : s.isEmpty
  · simp
  · have : s = "" := (String.isEmpty_iff s).mp hs
    subst this
    simp [validate_mac_address_empty]

/-- Claim C8 (counterexample): a record whose `description` key is present
but holds JSON `null` produces a row whose Description column is `null`,
not the placeholder — `dict.get(k, 'N/A')` only substitutes the default
when the key is absent — contradicting "no column is ever missing or
null". -/
theorem report_row_null_value_passes_through :
    ([("description", JVal.null), ("ip", JVal.str "10.0.0.1")] : Obj) ≠ [] ∧
    oget (flattenRecord "aa:bb:cc:dd:ee:ff"
        [("description", JVal.null), ("ip", JVal.str "10.0.0.1")] [])
      "Description" = some JVal.null := by
  exact ⟨by decide, rfl⟩

/-- Claim C8 (amended): every row has exactly the fixed column set, in a
fixed order, so all rows of one run share identical keys; every column
whose source field is absent holds the literal `"N/A"` placeholder; but a
source field that is present with a `null` value is copied through as
`null`. -/
theorem report_row_fixed_columns_and_defaults (mac : String) (d sw : Obj) :
    (flattenRecord mac d sw).map Prod.fst = reportColumns ∧
    (oget d "description" = none →
      oget (flattenRecord mac d sw) "Description" = some (JVal.str "N/A")) ∧
    (oget d "ip" = none →
      oget (flattenRecord mac d sw) "IP" = some (JVal.str "N/A")) ∧
    (oget d "switchSerial" = none →
      oget (flattenRecord mac d sw) "Switch Serial" = some (JVal.str "N/A")) ∧
    (oget d "switchPort" = none →
      oget (flattenRecord mac d sw) "Switch Port" = some (JVal.str "N/A")) ∧
    (oget d "ssid" = none →
      oget (flattenRecord mac d sw) "AP Name" = some (JVal.str "N/A")) ∧
    (oget sw "name" = none →
      oget (flattenRecord mac d sw) "Switch Name" = some (JVal.str "N/A")) ∧
    (oget sw "model" = none →
      oget (flattenRecord mac d sw) "Switch Model" = some (JVal.str "N/A")) := by
  refine ⟨rfl, ?_, ?_, ?_, ?_, ?_, ?_, ?_⟩ <;>
    · intro h
      simp [flattenRecord, oget, ogetD, h]

/-- Claim C8 (witness): the amended theorem applied to a record and a
switch record missing every optional field. -/
theorem report_row_fixed_columns_and_defaults_witness :
    (flattenRecord "aa:bb:cc:dd:ee:ff" [] []).map Prod.fst = reportColumns ∧
    oget (flattenRecord "aa:bb:cc:dd:ee:ff" [] []) "Description"
      = some (JVal.str "N/A") ∧
    oget (flattenRecord "aa:bb:cc:dd:ee:ff" [] []) "IP"
      = some (JVal.str "N/A") ∧
    oget (flattenRecord "aa:bb:cc:dd:ee:ff" [] []) "Switch Serial"
      = some (JVal.str "N/A") ∧
    oget (flattenRecord "aa:bb:cc:dd:ee:ff" [] []) "Switch Port"
      = some (JVal.str "N/A") ∧
    oget (flattenRecord "aa:bb:cc:dd:ee:ff" [] []) "AP Name"
      = some (JVal.str "N/A") ∧
    oget (flattenRecord "aa:bb:cc:dd:ee:ff" [] []) "Switch Name"
      = some (JVal.str "N/A") ∧
    oget (flattenRecord "aa:bb:cc:dd:ee:ff" [] []) "Switch Model"
      = some (JVal.str "N/A") := by
  obtain ⟨h₁, h₂, h₃, h₄, h₅, h₆, h₇, h₈⟩ :=
    report_row_fixed_columns_and_defaults "aa:bb:cc:dd:ee:ff" [] []
  exact ⟨h₁, h₂ rfl, h₃ rfl, h₄ rfl, h₅ rfl, h₆ rfl, h₇ rfl, h₈ rfl⟩

/-- A lookup whose identifier is already cached returns the cached record
and leaves the whole state — cache, request list and log — untouched. -/
theorem cached_lookup_hits (net : Nat → JVal → Resp) (id : JVal) (st : St)
    (d : Obj) (h : dlookup id st.cache = some d) :
    get_device_or_switch_details net id st = (d, st) := by
  simp [get_device_or_switch_details, h]

/-- A cache entry survives any later lookup, of any identifier: entries are
never overwritten (a hit does not write, and a miss inserts a different
key) nor evicted. -/
theorem cache_entry_preserved (net : Nat → JVal → Resp) (k id : JVal)
    (st : St) (d : Obj) (h : dlookup id st.cache = some d) :
    dlookup id (get_device_or_switch_details net k st).2.cache = some d := by
  unfold get_device_or_switch_details
  cases hk : dlookup k st.cache with
  | some v => simpa using h
  | none =>
    by_cases hki : k = id
    · rw [hki] at hk
      rw [hk] at h
      exact Option.noConfusion h
    · cases net st.requests.length k with
      | ok d₂ => simp [dlookup, hki, h]
      | httpError t => simpa using h
      | exn m => simpa using h

/-- The number of requests issued so far for a given identifier. -/
def countId (id : JVal) (l : List JVal) : Nat :=
  List.countP (fun x => decide (x = id)) l

/-- A lookup of `k` while `id` is already cached issues no new request for
`id`: either `k` hits the cache (no request at all) or `k ≠ id` (a lookup
of the cached `id` itself always hits) and the one request issued is for
`k`. -/
theorem cached_countId_preserved (net : Nat → JVal → Resp) (k id : JVal)
    (st : St) (d : Obj) (h : dlookup id st.cache = some d) :
    countId id (get_device_or_switch_details net k st).2.requests
      = countId id st.requests := by
  unfold get_device_or_switch_details
  cases hk : dlookup k st.cache with
  | some v => rfl
  | none =>
    have hki : k ≠ id := by
      intro hki
      rw [hki, h] at hk
      exact Option.noConfusion hk
    cases net st.requests.length k <;>
      simp [countId, List.countP_append, List.countP_cons, hki]

/-- Claim C3: a first lookup of an uncached serial that gets a 200 response
returns the body, stores it in the cache, and from then on any lookup of
that serial in the run returns the cached record with the state — request
list included — completely unchanged; the entry survives any intervening
lookups. -/
theorem lookup_success_cached_for_run (net : Nat → JVal → Resp) (id : JVal)
    (st : St) (d : Obj)
    (hmiss : dlookup id st.cache = none)
    (hok : net st.requests.length id = Resp.ok d) :
    (get_device_or_switch_details net id st).1 = d ∧
    dlookup id (get_device_or_switch_details net id st).2.cache = some d ∧
    (∀ (net₂ : Nat → JVal → Resp) (st₂ : St),
      dlookup id st₂.cache = some d →
      get_device_or_switch_details net₂ id st₂ = (d, st₂)) ∧
    (∀ (net₂ : Nat → JVal → Resp) (k : JVal) (st₂ : St),
      dlookup id st₂.cache = some d →
      dlookup id (get_device_or_switch_details net₂ k st₂).2.cache = some d) := by
  refine ⟨?_, ?_, ?_, ?_⟩
  · simp [get_device_or_switch_details, hmiss, hok]
  · simp [get_device_or_switch_details, hmiss, hok, dlookup]
  · intro net₂ st₂ h
    exact cached_lookup_hits net₂ id st₂ d h
  · intro net₂ k st₂ h
    exact cache_entry_preserved net₂ k id st₂ d h

/-- Claim C3 (witness): a lookup of serial Q2XX-1 against an oracle that
answers 200 with a one-field record, followed by a second lookup from the
post-call state. -/
theorem lookup_success_cached_for_run_witness :
    (get_device_or_switch_details (fun _ _ => Resp.ok [("model", JVal.str "MS220")])
        (JVal.str "Q2XX-1") initSt).1 = [("model", JVal.str "MS220")] ∧
    get_device_or_switch_details (fun _ _ => Resp.ok [("model", JVal.str "MS220")])
        (JVal.str "Q2XX-1")
        ⟨[(JVal.str "Q2XX-1", [("model", JVal.str "MS220")])], [JVal.str "Q2XX-1"], []⟩
      = ([("model", JVal.str "MS220")],
         ⟨[(JVal.str "Q2XX-1", [("model", JVal.str "MS220")])], [JVal.str "Q2XX-1"], []⟩) := by
  refine ⟨(lookup_success_cached_for_run
      (fun _ _ => Resp.ok [("model", JVal.str "MS220")]) (JVal.str "Q2XX-1")
      initSt [("model", JVal.str "MS220")] rfl rfl).1,
    (lookup_success_cached_for_run (fun _ _ => Resp.ok [("model", JVal.str "MS220")])
      (JVal.str "Q2XX-1") initSt [("model", JVal.str "MS220")] rfl rfl).2.2.1
      _ _ (by simp [dlookup])⟩

/-- Claim C4: a lookup of an uncached serial that fails (non-200 status or
transport exception) returns the empty record, leaves the cache exactly as
it was, and issues a request; a subsequent lookup of the same serial issues
another request, whatever the second response is. -/
theorem lookup_failure_not_cached (net : Nat → JVal → Resp) (id : JVal)
    (st : St)
    (hmiss : dlookup id st.cache = none)
    (herr : (net st.requests.length id).isOk = false) :
    (get_device_or_switch_details net id st).1 = [] ∧
    (get_device_or_switch_details net id st).2.cache = st.cache ∧
    (get_device_or_switch_details net id st).2.requests = st.requests ++ [id] ∧
    (∀ net₂ : Nat → JVal → Resp,
      (get_device_or_switch_details net₂ id
          (get_device_or_switch_details net id st).2).2.requests
        = st.requests ++ [id] ++ [id]) := by
  cases hresp : net st.requests.length id with
  | ok d =>
    rw [hresp] at herr
    exact Bool.noConfusion herr
  | httpError t =>
    refine ⟨by simp [get_device_or_switch_details, hmiss, hresp],
      by simp [get_device_or_switch_details, hmiss, hresp],
      by simp [get_device_or_switch_details, hmiss, hresp], ?_⟩
    intro net₂
    cases hresp₂ : net₂ (st.requests.length + 1) id <;>
      simp [get_device_or_switch_details, hmiss, hresp, hresp₂]
  | exn m =>
    refine ⟨by simp [get_device_or_switch_details, hmiss, hresp],
      by simp [get_device_or_switch_details, hmiss, hresp],
      by simp [get_device_or_switch_details, hmiss, hresp], ?_⟩
    intro net₂
    cases hresp₂ : net₂ (st.requests.length + 1) id <;>
      simp [get_device_or_switch_details, hmiss, hresp, hresp₂]

/-- Claim C4 (witness): a lookup of serial Q2XX-2 against an oracle that
always raises a transport exception, checked for both calls. -/
theorem lookup_failure_not_cached_witness :
    (get_device_or_switch_details (fun _ _ => Resp.exn "timeout")
        (JVal.str "Q2XX-2") initSt).1 = [] ∧
    (get_device_or_switch_details (fun _ _ => Resp.exn "timeout")
        (JVal.str "Q2XX-2") initSt).2.cache = initSt.cache ∧
    (get_device_or_switch_details (fun _ _ => Resp.exn "timeout")
        (JVal.str "Q2XX-2") initSt).2.requests
      = initSt.requests ++ [JVal.str "Q2XX-2"] ∧
    (get_device_or_switch_details (fun _ _ => Resp.exn "timeout")
        (JVal.str "Q2XX-2")
        (get_device_or_switch_details (fun _ _ => Resp.exn "timeout")
          (JVal.str "Q2XX-2") initSt).2).2.requests
      = initSt.requests ++ [JVal.str "Q2XX-2"] ++ [JVal.str "Q2XX-2"] := by
  obtain ⟨h₁, h₂, h₃, h₄⟩ :=
    lookup_failure_not_cached (fun _ _ => Resp.exn "timeout")
      (JVal.str "Q2XX-2") initSt rfl rfl
  exact ⟨h₁, h₂, h₃, h₄ (fun _ _ => Resp.exn "timeout")⟩

/-- Claim C5: when an item's lookup fails, the lookup returns the empty
record and appends exactly one error log entry, the cache is untouched, the
failed item contributes no report row, and the loop goes on to process the
remaining items from that state — the batch is never aborted. -/
theorem failed_item_skipped_batch_continues (net : Nat → JVal → Resp)
    (mac : String) (rest : List String) (st : St)
    (hmiss : dlookup (JVal.str mac) st.cache = none)
    (herr : (net st.requests.length (JVal.str mac)).isOk = false) :
    ∃ e : LogEntry,
      (get_device_or_switch_details net (JVal.str mac) st).1 = [] ∧
      (get_device_or_switch_details net (JVal.str mac) st).2
        = { st with requests := st.requests ++ [JVal.str mac],
                    log := st.log ++ [e] } ∧
      processLoop net (mac :: rest) st
        = processLoop net rest
            { st with requests := st.requests ++ [JVal.str mac],
                      log := st.log ++ [e] } := by
  cases hresp : net st.requests.length (JVal.str mac) with
  | ok d =>
    rw [hresp] at herr
    exact Bool.noConfusion herr
  | httpError t =>
    refine ⟨LogEntry.fetchError (JVal.str mac) t, ?_, ?_, ?_⟩
    · simp [get_device_or_switch_details, hmiss, hresp]
    · simp [get_device_or_switch_details, hmiss, hresp]
    · simp [processLoop, get_device_or_switch_details, hmiss, hresp]
  | exn m =>
    refine ⟨LogEntry.requestExn (JVal.str mac) m, ?_, ?_, ?_⟩
    · simp [get_device_or_switch_details, hmiss, hresp]
    · simp [get_device_or_switch_details, hmiss, hresp]
    · simp [processLoop, get_device_or_switch_details, hmiss, hresp]

/-- Claim C5 (witness): a batch of two MACs whose first lookup raises a
transport exception. -/
theorem failed_item_skipped_batch_continues_witness :
    ∃ e : LogEntry,
      (get_device_or_switch_details (fun _ _ => Resp.exn "refused")
          (JVal.str "aa:bb:cc:dd:ee:ff") initSt).1 = [] ∧
      (get_device_or_switch_details (fun _ _ => Resp.exn "refused")
          (JVal.str "aa:bb:cc:dd:ee:ff") initSt).2
        = { initSt with
              requests := initSt.requests ++ [JVal.str "aa:bb:cc:dd:ee:ff"],
              log := initSt.log ++ [e] } ∧
      processLoop (fun _ _ => Resp.exn "refused")
          ("aa:bb:cc:dd:ee:ff" :: ["11:22:33:44:55:66"]) initSt
        = processLoop (fun _ _ => Resp.exn "refused") ["11:22:33:44:55:66"]
            { initSt with
                requests := initSt.requests ++ [JVal.str "aa:bb:cc:dd:ee:ff"],
                log := initSt.log ++ [e] } :=
  failed_item_skipped_batch_continues (fun _ _ => Resp.exn "refused")
    "aa:bb:cc:dd:ee:ff" ["11:22:33:44:55:66"] initSt rfl rfl

/-- Every row the processing loop accumulates is built by `flattenRecord`,
so it carries exactly the fixed report columns. -/
theorem processLoop_rows_columns (net : Nat → JVal → Resp) (macs : List String) :
    ∀ st : St, ∀ r ∈ (processLoop net macs st).1,
      r.map Prod.fst = reportColumns := by
  induction macs with
  | nil =>
    intro st r hr
    simp [processLoop] at hr
  | cons mac rest ih =>
    intro st r hr
    simp only [processLoop] at hr
    split at hr
    · exact ih _ r hr
    · rcases List.mem_cons.mp hr with rfl | hr₂
      · rfl
      · exact ih _ r hr₂

/-- `write_to_csv` succeeds on any non-empty list of rows sharing the fixed
column set: the header check against the first row's keys passes. -/
theorem write_to_csv_ok_of_columns (r₀ : Row) (t : List Row)
    (hcols : ∀ r ∈ r₀ :: t, r.map Prod.fst = reportColumns) :
    ∃ c, write_to_csv (r₀ :: t) = Except.ok c := by
  have hall : (r₀ :: t).all
      (fun r => r.all (fun kv => (r₀.map Prod.fst).contains kv.1)) = true := by
    rw [List.all_eq_true]
    intro r hr
    rw [List.all_eq_true]
    intro kv hkv
    have hmem : kv.1 ∈ r.map Prod.fst := List.mem_map_of_mem Prod.fst hkv
    rw [hcols r hr, ← hcols r₀ (List.mem_cons_self r₀ t)] at hmem
    simpa using List.elem_iff.mpr hmem
  refine ⟨(r₀.map Prod.fst,
    (r₀ :: t).map fun r => (r₀.map Prod.fst).map fun k => ogetD r k (JVal.str "")), ?_⟩
  simp only [write_to_csv]
  rw [hall]
  rfl

/-- Claim C9: invoking the CSV writer on an empty row list fails (header
derivation indexes the first row), and under the caller's guard this never
happens: `process_mac_addresses` either skips the write (`none`) or the
write succeeds, for every oracle, input list and starting state. -/
theorem csv_writer_never_called_empty :
    write_to_csv [] = Except.error "IndexError: list index out of range" ∧
    ∀ (net : Nat → JVal → Resp) (macs : List String) (st : St),
      (process_mac_addresses net macs st).2.1 = none ∨
      ∃ c, (process_mac_addresses net macs st).2.1 = some (Except.ok c) := by
  refine ⟨rfl, ?_⟩
  intro net macs st
  cases hE : (processLoop net macs st).1 with
  | nil => exact Or.inl (by simp [process_mac_addresses, hE])
  | cons r₀ t =>
    right
    obtain ⟨c, hc⟩ := write_to_csv_ok_of_columns r₀ t
      (by rw [← hE]; exact processLoop_rows_columns net macs st)
    exact ⟨c, by simp [process_mac_addresses, hE, hc]⟩

/-- Requests already issued for an identifier, plus one still possible
while the identifier has no cache entry. For an identifier the oracle
always resolves successfully this quantity never increases. -/
def reqBound (id : JVal) (st : St) : Nat :=
  countId id st.requests + (if (dlookup id st.cache).isSome then 0 else 1)

theorem getDetails_reqBound (net : Nat → JVal → Resp) (id k : JVal) (st : St)
    (d : Obj) (hok : ∀ n, net n id = Resp.ok d) :
    reqBound id (get_device_or_switch_details net k st).2 ≤ reqBound id st := by
  unfold get_device_or_switch_details
  cases hk : dlookup k st.cache with
  | some v => exact le_refl _
  | none =>
    by_cases hki : k = id
    · subst hki
      rw [hok st.requests.length]
      simp [reqBound, countId, List.countP_append, List.countP_cons, dlookup, hk]
    · cases hresp : net st.requests.length k with
      | ok d₂ =>
        simp [reqBound, countId, List.countP_append, List.countP_cons,
          dlookup, hki]
      | httpError t =>
        simp [reqBound, countId, List.countP_append, List.countP_cons, hki]
      | exn m =>
        simp [reqBound, countId, List.countP_append, List.countP_cons, hki]

theorem processLoop_reqBound (net : Nat → JVal → Resp) (id : JVal) (d : Obj)
    (hok : ∀ n, net n id = Resp.ok d) (macs : List String) :
    ∀ st : St, reqBound id (processLoop net macs st).2 ≤ reqBound id st := by
  induction macs with
  | nil => intro st; exact le_refl _
  | cons mac rest ih =>
    intro st
    simp only [processLoop]
    split
    · exact le_trans (ih _) (getDetails_reqBound net id (JVal.str mac) st d hok)
    · refine le_trans (ih _) ?_
      split
      · exact le_trans (getDetails_reqBound net id _ _ d hok)
          (getDetails_reqBound net id _ _ d hok)
      · exact getDetails_reqBound net id _ _ d hok

/-- One loop iteration whose device lookup returns a truthy cached-or-fresh
record `d` appends one flattened row and recurses, with the record's cache
entry and the request count for the MAC's identifier unchanged by the
optional switch lookup in between. -/
theorem processLoop_cons_of_lookup (net : Nat → JVal → Resp) (mac : String)
    (rest : List String) (st : St) (d : Obj) (st₁ : St)
    (h : get_device_or_switch_details net (JVal.str mac) st = (d, st₁))
    (hd : dlookup (JVal.str mac) st₁.cache = some d)
    (hne : d.isEmpty = false) :
    ∃ sw st₂,
      processLoop net (mac :: rest) st
        = (flattenRecord mac d sw :: (processLoop net rest st₂).1,
           (processLoop net rest st₂).2) ∧
      dlookup (JVal.str mac) st₂.cache = some d ∧
      countId (JVal.str mac) st₂.requests
        = countId (JVal.str mac) st₁.requests := by
  cases hsw : truthyOpt (oget d "switchSerial") with
  | true =>
    refine ⟨(get_device_or_switch_details net
        (ogetD d "switchSerial" (JVal.str "")) st₁).1,
      (get_device_or_switch_details net
        (ogetD d "switchSerial" (JVal.str "")) st₁).2, ?_, ?_, ?_⟩
    · simp only [processLoop, h, hne, hsw, Bool.false_eq_true, if_false, if_true]
    · exact cache_entry_preserved net _ _ st₁ d hd
    · exact cached_countId_preserved net _ _ st₁ d hd
  | false =>
    refine ⟨[], st₁, ?_, hd, rfl⟩
    simp only [processLoop, h, hne, hsw, Bool.false_eq_true, if_false]

/-- Claim C10: because MAC-keyed client lookups and serial-keyed switch
lookups go through the same cached function, a duplicated MAC whose record
is truthy is fetched over the network exactly once in a two-occurrence run
while still yielding two report rows; and in any run, an identifier the
oracle always resolves successfully is requested at most once. -/
theorem duplicate_mac_one_request_two_rows (net : Nat → JVal → Resp)
    (mac : String) (d : Obj)
    (hok : ∀ n, net n (JVal.str mac) = Resp.ok d)
    (hne : d.isEmpty = false) :
    (processLoop net [mac, mac] initSt).1.length = 2 ∧
    countId (JVal.str mac) (processLoop net [mac, mac] initSt).2.requests = 1 ∧
    ∀ macs : List String,
      countId (JVal.str mac) (processLoop net macs initSt).2.requests ≤ 1 := by
  have h₁ : get_device_or_switch_details net (JVal.str mac) initSt
      = (d, ⟨[(JVal.str mac, d)], [JVal.str mac], []⟩) := by
    simp [get_device_or_switch_details, initSt, dlookup, hok 0]
  have hd₁ : dlookup (JVal.str mac)
      (⟨[(JVal.str mac, d)], [JVal.str mac], []⟩ : St).cache = some d := by
    simp [dlookup]
  obtain ⟨sw₁, st₂, he₁, hd₂, hc₂⟩ :=
    processLoop_cons_of_lookup net mac [mac] initSt d _ h₁ hd₁ hne
  obtain ⟨sw₂, st₃, he₂, hd₃, hc₃⟩ :=
    processLoop_cons_of_lookup net mac [] st₂ d st₂
      (cached_lookup_hits net (JVal.str mac) st₂ d hd₂) hd₂ hne
  refine ⟨?_, ?_, ?_⟩
  · rw [he₁, he₂]
    simp [processLoop]
  · rw [he₁]
    show countId (JVal.str mac) (processLoop net [mac] st₂).2.requests = 1
    rw [he₂]
    show countId (JVal.str mac) (processLoop net [] st₃).2.requests = 1
    simp only [processLoop]
    rw [hc₃, hc₂]
    simp [countId]
  · intro macs
    calc countId (JVal.str mac) (processLoop net macs initSt).2.requests
        ≤ reqBound (JVal.str mac) (processLoop net macs initSt).2 :=
          Nat.le_add_right _ _
      _ ≤ reqBound (JVal.str mac) initSt :=
          processLoop_reqBound net (JVal.str mac) d hok macs initSt
      _ = 1 := by simp [reqBound, countId, initSt, dlookup]

/-- Claim C10 (witness): an oracle answering every identifier with the same
truthy record, and the MAC aa:bb:cc:dd:ee:ff listed twice. -/
theorem duplicate_mac_one_request_two_rows_witness :
    (processLoop (fun _ _ => Resp.ok [("ip", JVal.str "10.0.0.9")])
      ["aa:bb:cc:dd:ee:ff", "aa:bb:cc:dd:ee:ff"] initSt).1.length = 2 ∧
    countId (JVal.str "aa:bb:cc:dd:ee:ff")
      (processLoop (fun _ _ => Resp.ok [("ip", JVal.str "10.0.0.9")])
        ["aa:bb:cc:dd:ee:ff", "aa:bb:cc:dd:ee:ff"] initSt).2.requests = 1 ∧
    countId (JVal.str "aa:bb:cc:dd:ee:ff")
      (processLoop (fun _ _ => Resp.ok [("ip", JVal.str "10.0.0.9")])
        ["aa:bb:cc:dd:ee:ff", "11:22:33:44:55:66", "aa:bb:cc:dd:ee:ff"]
        initSt).2.requests ≤ 1 := by
  obtain ⟨hlen, hcount, hall⟩ :=
    duplicate_mac_one_request_two_rows
      (fun _ _ => Resp.ok [("ip", JVal.str "10.0.0.9")]) "aa:bb:cc:dd:ee:ff"
      [("ip", JVal.str "10.0.0.9")] (fun _ => rfl) rfl
  exact ⟨hlen, hcount,
    hall ["aa:bb:cc:dd:ee:ff", "11:22:33:44:55:66", "aa:bb:cc:dd:ee:ff"]⟩
